import Mathlib

/-!
Verification of `ip_validation/cli/testcases.py` (E-ARK test-case decoding).

The Python module decodes an XML test-case document (lxml element tree)
into a `TestCase` object graph.  We shallowly embed the module: XML
elements become a Lean structure, every decoder (`from_element` of
`TestCase`, `CaseId`, `Rule`, `Rule.Error`, `Rule.Package`, plus the
entry points `from_xml_string` / `from_xml_file`) is translated
line-by-line, and the dynamically typed slots of the Python objects are
modelled with `Option`/`PyVal` so that `None` and booleans stored in
string slots are represented faithfully.
-/

namespace Eark

/-- A dynamically typed Python value, as far as this module stores one in
the `_testable` slot: `None`, a string, or a boolean. -/
inductive PyVal where
  | none
  | str (s : String)
  | bool (b : Bool)
deriving DecidableEq

/-- Python `v == lit` for a string literal `lit`: true only when `v` is a
string with the same characters; `True == "TRUE"` and `None == "TRUE"`
are `False` in Python. -/
def PyVal.eqStr : PyVal → String → Bool
  | PyVal.str t, s => t == s
  | _, _ => false

/-- The Python runtime errors this module can actually raise. -/
inductive PyError where
  | typeError
  | attributeError
deriving DecidableEq

/-- An lxml element: tag, attribute list, optional text node, and the
list of immediate child elements in document order.  `text` is `none`
when the element has no text content (lxml reports `None` there). -/
structure Element where
  tag : String
  attrs : List (String × String)
  text : Option String
  children : List Element

/-- lxml `element.get(name)`: the attribute's value, or `None` when the
attribute is absent. -/
def Element.get (e : Element) (name : String) : Option String :=
  (e.attrs.find? (fun p => p.1 == name)).map (fun p => p.2)

/-- A schema is modelled by its validity verdict on a root element. -/
def Schema : Type := Element → Bool

/-- lxml `XMLSchema.validate(tree)`: returns the boolean verdict and
never raises. -/
def Schema.validate (s : Schema) (e : Element) : Bool := s e

/-- Modelled from the spec: the bundled `testCase.xsd` resource is not
under `src/`; per the spec a document with "an unexpected root tag" or a
"missing required `id` element" does not conform, so the modelled schema
demands the root tag `testCase` and at least one `id` child. -/
def TC_SCHEMA : Schema := fun e =>
  e.tag == "testCase" && e.children.any (fun c => c.tag == "id")

/-- `TestCase.Rule.Error`: level and message slots. -/
structure TestCase.Rule.Error where
  level : Option String
  message : Option String
deriving DecidableEq

/-- `TestCase.Rule.Error.from_element`: read the `level` attribute, then
scan children for `message` tags, the last one's text winning over the
initial `''`. -/
def TestCase.Rule.Error.from_element (error_ele : Element) : TestCase.Rule.Error :=
  let level := error_ele.get "level"
  let message := error_ele.children.foldl
    (fun message child => if child.tag = "message" then child.text else message)
    (some "")
  ⟨level, message⟩

/-- `TestCase.Rule.Package`: name, path, raw validity string, description. -/
structure TestCase.Rule.Package where
  name : Option String
  path : Option String
  is_valid : Option String
  description : Option String
deriving DecidableEq

/-- One step of the `Package.from_element` child loop: `path` and
`description` tags update the corresponding slot, latest wins. -/
def TestCase.Rule.Package.step (st : Option String × Option String) (child : Element) :
    Option String × Option String :=
  if child.tag = "path" then (child.text, st.2)
  else if child.tag = "description" then (st.1, child.text)
  else st

/-- `TestCase.Rule.Package.from_element`: read the `isValid` and `name`
attributes, then walk children for `path` / `description` text. -/
def TestCase.Rule.Package.from_element (package_ele : Element) : TestCase.Rule.Package :=
  let is_valid := package_ele.get "isValid"
  let name := package_ele.get "name"
  let st := package_ele.children.foldl TestCase.Rule.Package.step (some "", some "")
  ⟨name, st.1, is_valid, st.2⟩

/-- `TestCase.Rule`: id, description, optional error, package list. -/
structure TestCase.Rule where
  rule_id : Option String
  description : Option String
  error : Option TestCase.Rule.Error
  packages : List TestCase.Rule.Package
deriving DecidableEq

/-- `TestCase.Rule._parse_package_list`: collect, in document order, a
decoded `Package` for each child of `corpusPackages` tagged `package`
(children with other tags are skipped here). -/
def TestCase.Rule.parse_package_list (packages_ele : Element) : List TestCase.Rule.Package :=
  packages_ele.children.foldl
    (fun packages child =>
      if child.tag = "package"
      then packages ++ [TestCase.Rule.Package.from_element child]
      else packages)
    []

/-- One step of the `Rule.from_element` child loop: dispatch on the tag,
`description` / `error` / `corpusPackages` each overwriting its slot. -/
def TestCase.Rule.step
    (st : Option String × Option TestCase.Rule.Error × List TestCase.Rule.Package)
    (child : Element) :
    Option String × Option TestCase.Rule.Error × List TestCase.Rule.Package :=
  if child.tag = "description" then (child.text, st.2.1, st.2.2)
  else if child.tag = "error" then
    (st.1, some (TestCase.Rule.Error.from_element child), st.2.2)
  else if child.tag = "corpusPackages" then
    (st.1, st.2.1, TestCase.Rule.parse_package_list child)
  else st

/-- `TestCase.Rule.from_element`: read the `id` attribute, then walk the
children once with `TestCase.Rule.step`, starting from
`description = ""`, `error = None`, `packages = []`. -/
def TestCase.Rule.from_element (rule_ele : Element) : TestCase.Rule :=
  let rule_id := rule_ele.get "id"
  let st := rule_ele.children.foldl TestCase.Rule.step (some "", Option.none, [])
  ⟨rule_id, st.1, st.2.1, st.2.2⟩

/-- `TestCase.CaseId`: requirement id, specification, version. -/
structure TestCase.CaseId where
  requirement_id : Option String
  specification : Option String
  version : Option String
deriving DecidableEq

/-- `TestCase.CaseId.from_element`: pure attribute read of
`requirementId`, `specification` and `version`. -/
def TestCase.CaseId.from_element (case_id_ele : Element) : TestCase.CaseId :=
  ⟨case_id_ele.get "requirementId", case_id_ele.get "specification",
    case_id_ele.get "version"⟩

/-- The `TestCase` object: the five private slots set by `__init__`. -/
structure TestCase where
  raw_case_id : Option TestCase.CaseId
  raw_testable : PyVal
  raw_references : List String
  raw_text : Option String
  raw_rules : List TestCase.Rule
deriving DecidableEq

/-- `TestCase.__init__(case_id, testable=True, references=None, text="",
rules=None)`: stores the arguments, substituting `[]` for a `None`
`references` or `rules`.  Callers relying on the Python defaults pass
`PyVal.bool true` for `testable`, `Option.none` for `references` and
`rules`, and `some ""` for `text`. -/
def TestCase.init (case_id : Option TestCase.CaseId) (testable : PyVal)
    (references : Option (List String)) (text : Option String)
    (rules : Option (List TestCase.Rule)) : TestCase :=
  ⟨case_id, testable, references.getD [], text, rules.getD []⟩

/-- Property `TestCase.case_id`. -/
def TestCase.case_id (tc : TestCase) : Option TestCase.CaseId := tc.raw_case_id

/-- Property `TestCase.testable`: `self._testable == 'TRUE'`. -/
def TestCase.testable (tc : TestCase) : Bool := tc.raw_testable.eqStr "TRUE"

/-- Property `TestCase.unknown`: `self._testable == 'UNKNOWN'`. -/
def TestCase.unknown (tc : TestCase) : Bool := tc.raw_testable.eqStr "UNKNOWN"

/-- Property `TestCase.references`. -/
def TestCase.references (tc : TestCase) : List String := tc.raw_references

/-- Property `TestCase.requirement_text`. -/
def TestCase.requirement_text (tc : TestCase) : Option String := tc.raw_text

/-- Property `TestCase.rules`. -/
def TestCase.rules (tc : TestCase) : List TestCase.Rule := tc.raw_rules

/-- One step of the `TestCase.from_element` child loop: an `id` child
overwrites the case id, a `requirementText` child overwrites the text,
and a `rules` child appends a decoded rule for EVERY one of its children
(the inner `for rule_ele in child` loop has no tag filter). -/
def TestCase.step
    (st : Option TestCase.CaseId × Option String × List TestCase.Rule)
    (child : Element) :
    Option TestCase.CaseId × Option String × List TestCase.Rule :=
  if child.tag = "id" then (some (TestCase.CaseId.from_element child), st.2.1, st.2.2)
  else if child.tag = "requirementText" then (st.1, child.text, st.2.2)
  else if child.tag = "rules" then
    (st.1, st.2.1, st.2.2 ++ child.children.map TestCase.Rule.from_element)
  else st

/-- `TestCase.from_element`: call `schema.validate(case_ele)` and DISCARD
the boolean verdict (the source never inspects it), read the `testable`
attribute, walk the children once with `TestCase.step`, and return a
`TestCase` built with the remaining constructor defaults. -/
def TestCase.from_element (case_ele : Element) (schema : Schema) : TestCase :=
  let _verdict := Schema.validate schema case_ele
  let testable : PyVal :=
    match case_ele.get "testable" with
    | Option.none => PyVal.none
    | Option.some s => PyVal.str s
  let st := case_ele.children.foldl TestCase.step (Option.none, some "", [])
  TestCase.init st.1 testable Option.none st.2.1 (Option.some st.2.2)

/-- An lxml `_ElementTree`, the wrapper returned by `etree.parse`. -/
structure ElementTree where
  root : Element

/-- lxml `_ElementTree.getroot()`: the document's root element. -/
def ElementTree.getroot (t : ElementTree) : Element := t.root

/-- lxml `etree.parse(file)`: parsing a well-formed file yields an
`_ElementTree`; we model the file by its root element. -/
def parse (xml_file : Element) : ElementTree := ⟨xml_file⟩

/-- lxml `etree.fromstring(text)`: parsing a well-formed string yields
the root `_Element` itself (NOT an `_ElementTree`); we model the string
by its root element. -/
def fromstring (xml : Element) : Element := xml

/-- Attribute access `element.getroot` on an lxml `_Element`: the class
has no such method, so Python raises `AttributeError`. -/
def Element.getroot (_ : Element) : Except PyError Element :=
  Except.error PyError.attributeError

/-- `TestCase.from_xml_string(xml, schema)`:
`tree = ET.fromstring(xml)` then `cls.from_element(tree.getroot(), schema)`. -/
def TestCase.from_xml_string (xml : Element) (schema : Schema) :
    Except PyError TestCase :=
  let tree := fromstring xml
  match tree.getroot with
  | Except.error e => Except.error e
  | Except.ok root => Except.ok (TestCase.from_element root schema)

/-- `TestCase.from_xml_file(xml_file, schema)`:
`tree = ET.parse(xml_file)` then `cls.from_element(tree.getroot(), schema)`. -/
def TestCase.from_xml_file (xml_file : Element) (schema : Schema) : TestCase :=
  let tree := parse xml_file
  TestCase.from_element tree.getroot schema

/-- Python `s + v` for a `str` `s` and an `Optional[str]` `v`:
concatenation when `v` is a string, `TypeError` when it is `None`. -/
def pyAddOptStr (a : String) (b : Option String) : Except PyError String :=
  match b with
  | Option.some s => Except.ok (a ++ s)
  | Option.none => Except.error PyError.typeError

/-- Python `s + b` for a `str` `s` and a `bool` `b`: always `TypeError`
(`str.__add__` accepts only `str`). -/
def pyAddBool (_ : String) (_ : Bool) : Except PyError String :=
  Except.error PyError.typeError

/-- `TestCase.CaseId.__str__`:
`"req_id:" + self.requirement_id + ", specification:" + self.specification
+ ", version:" + self.version`, evaluated left to right; any `None` field
raises `TypeError` at its concatenation. -/
def TestCase.CaseId.toStr (c : TestCase.CaseId) : Except PyError String :=
  match pyAddOptStr "req_id:" c.requirement_id with
  | Except.error e => Except.error e
  | Except.ok s1 =>
    match pyAddOptStr (s1 ++ ", specification:") c.specification with
    | Except.error e => Except.error e
    | Except.ok s2 => pyAddOptStr (s2 ++ ", version:") c.version

/-- Python `str(x)` on an `Optional[CaseId]`: `str(None)` is `"None"`,
otherwise `CaseId.__str__` runs. -/
def pyStrOptCaseId (c : Option TestCase.CaseId) : Except PyError String :=
  match c with
  | Option.none => Except.ok "None"
  | Option.some cid => cid.toStr

/-- `TestCase.__str__`:
`"case_id:" + str(self.case_id) + ", testable:" + self.testable
+ ", requirement:" + self.requirement_text`, evaluated left to right.
`self.testable` is the boolean property, so its concatenation is the
`str + bool` case. -/
def TestCase.toStr (tc : TestCase) : Except PyError String :=
  match pyStrOptCaseId tc.case_id with
  | Except.error e => Except.error e
  | Except.ok cid =>
    match pyAddBool ("case_id:" ++ cid ++ ", testable:") tc.testable with
    | Except.error e => Except.error e
    | Except.ok s => pyAddOptStr (s ++ ", requirement:") tc.requirement_text

/-- Last-wins accumulation of the case id over a child list: what the
`id` branch of the `TestCase.from_element` loop leaves in `req_id`. -/
def caseIdOf : List Element → Option TestCase.CaseId → Option TestCase.CaseId
  | [], acc => acc
  | c :: cs, acc =>
    caseIdOf cs (if c.tag = "id" then some (TestCase.CaseId.from_element c) else acc)

/-- Last-wins accumulation of the requirement text over a child list. -/
def textOf : List Element → Option String → Option String
  | [], acc => acc
  | c :: cs, acc => textOf cs (if c.tag = "requirementText" then c.text else acc)

/-- The rules accumulated over a child list: each `rules`-tagged child
contributes a decoded rule per immediate child, in document order. -/
def rulesOf : List Element → List TestCase.Rule
  | [] => []
  | c :: cs =>
    (if c.tag = "rules" then c.children.map TestCase.Rule.from_element else [])
      ++ rulesOf cs

/-- Last-wins accumulation of the description over a rule's child list. -/
def descOf : List Element → Option String → Option String
  | [], acc => acc
  | c :: cs, acc => descOf cs (if c.tag = "description" then c.text else acc)

/-- Last-wins accumulation of the error over a rule's child list. -/
def errOf : List Element → Option TestCase.Rule.Error → Option TestCase.Rule.Error
  | [], acc => acc
  | c :: cs, acc =>
    errOf cs (if c.tag = "error" then some (TestCase.Rule.Error.from_element c) else acc)

/-- Last-wins accumulation of the package list over a rule's child list. -/
def pkgsOf : List Element → List TestCase.Rule.Package → List TestCase.Rule.Package
  | [], acc => acc
  | c :: cs, acc =>
    pkgsOf cs (if c.tag = "corpusPackages" then TestCase.Rule.parse_package_list c else acc)

/-- A root element with the right tag but no `id` child: not schema
conformant under the modelled schema. -/
def c1doc : Element := ⟨"testCase", [("testable", "TRUE")], Option.none, []⟩

/-- A `rules` element whose only child is tagged `metadata`, not `rule`. -/
def c4rules : Element := ⟨"rules", [], Option.none, [⟨"metadata", [], Option.none, []⟩]⟩

/-- A document whose `rules` element has zero `rule`-tagged children but
one `metadata` child. -/
def c4doc : Element := ⟨"testCase", [], Option.none, [c4rules]⟩

/-- A child of `rules` tagged `note` instead of `rule`. -/
def c5note : Element := ⟨"note", [], Option.none, []⟩

/-- A `rules` element whose only child is the `note` element. -/
def c5rules : Element := ⟨"rules", [], Option.none, [c5note]⟩

/-- A document whose `rules` element contains only the `note` child. -/
def c5doc : Element := ⟨"testCase", [], Option.none, [c5rules]⟩

/-- A `rules` element whose only child is tagged `comment`. -/
def c6rules : Element := ⟨"rules", [], Option.none, [⟨"comment", [], Option.none, []⟩]⟩

/-- A document whose `rules` element has zero `rule` children but one
`comment` child. -/
def c6doc : Element := ⟨"testCase", [], Option.none, [c6rules]⟩

/-- A document whose `rules` element has no children at all. -/
def c6emptyDoc : Element :=
  ⟨"testCase", [("testable", "UNKNOWN")], Option.none,
    [⟨"rules", [], Option.none, []⟩]⟩

/-- A `rule` element with a description child and no `error` child. -/
def c6rule : Element :=
  ⟨"rule", [("id", "R1")], Option.none, [⟨"description", [], some "d", []⟩]⟩

/-- A present but empty `requirementText` element: lxml reports its text
as `None`. -/
def c7empty : Element := ⟨"requirementText", [], Option.none, []⟩

/-- A document containing the empty `requirementText` element. -/
def c7doc : Element := ⟨"testCase", [], Option.none, [c7empty]⟩

/-- A document with no `requirementText` element at all. -/
def c7absentDoc : Element :=
  ⟨"testCase", [("testable", "FALSE")], Option.none,
    [⟨"id", [("requirementId", "CSIP1")], Option.none, []⟩]⟩

/-- A `requirementText` element with authored text. -/
def c7textEle : Element := ⟨"requirementText", [], some "Text as authored ", []⟩

/-- A document carrying the authored `requirementText` between an `id`
sibling and a `rules` sibling. -/
def c7textDoc : Element :=
  ⟨"testCase", [("testable", "TRUE")], Option.none,
    [⟨"id", [("requirementId", "CSIP1")], Option.none, []⟩,
     c7textEle,
     ⟨"rules", [], Option.none, []⟩]⟩

lemma tc_foldl_eq (l : List Element)
    (st : Option TestCase.CaseId × Option String × List TestCase.Rule) :
    l.foldl TestCase.step st
      = (caseIdOf l st.1, textOf l st.2.1, st.2.2 ++ rulesOf l) := by
  induction l generalizing st with
  | nil => simp [caseIdOf, textOf, rulesOf]
  | cons c cs ih =>
    rw [List.foldl_cons, ih]
    show _ = (caseIdOf (c :: cs) st.1, textOf (c :: cs) st.2.1,
      st.2.2 ++ rulesOf (c :: cs))
    simp only [caseIdOf, textOf, rulesOf, TestCase.step]
    by_cases h1 : c.tag = "id"
    · simp [h1]
    · by_cases h2 : c.tag = "requirementText"
      · simp [h1, h2]
      · by_cases h3 : c.tag = "rules"
        · simp [h1, h2, h3, List.append_assoc]
        · simp [h1, h2, h3]

lemma from_element_rules (e : Element) (s : Schema) :
    (TestCase.from_element e s).rules = rulesOf e.children := by
  simp [TestCase.from_element, TestCase.init, TestCase.rules, tc_foldl_eq]

lemma from_element_text (e : Element) (s : Schema) :
    (TestCase.from_element e s).requirement_text = textOf e.children (some "") := by
  simp [TestCase.from_element, TestCase.init, TestCase.requirement_text, tc_foldl_eq]

lemma rule_foldl_eq (l : List Element)
    (st : Option String × Option TestCase.Rule.Error × List TestCase.Rule.Package) :
    l.foldl TestCase.Rule.step st = (descOf l st.1, errOf l st.2.1, pkgsOf l st.2.2) := by
  induction l generalizing st with
  | nil => simp [descOf, errOf, pkgsOf]
  | cons c cs ih =>
    rw [List.foldl_cons, ih]
    show _ = (descOf (c :: cs) st.1, errOf (c :: cs) st.2.1, pkgsOf (c :: cs) st.2.2)
    simp only [descOf, errOf, pkgsOf, TestCase.Rule.step]
    by_cases h1 : c.tag = "description"
    · simp [h1]
    · by_cases h2 : c.tag = "error"
      · simp [h1, h2]
      · by_cases h3 : c.tag = "corpusPackages"
        · simp [h1, h2, h3]
        · simp [h1, h2, h3]

lemma rule_from_element_error (re : Element) :
    (TestCase.Rule.from_element re).error = errOf re.children Option.none := by
  simp [TestCase.Rule.from_element, rule_foldl_eq]

lemma rule_from_element_packages (re : Element) :
    (TestCase.Rule.from_element re).packages = pkgsOf re.children [] := by
  simp [TestCase.Rule.from_element, rule_foldl_eq]

lemma parse_package_list_eq (pe : Element) :
    TestCase.Rule.parse_package_list pe
      = (pe.children.filter (fun c => c.tag == "package")).map
          TestCase.Rule.Package.from_element := by
  show pe.children.foldl _ [] = _
  have key : ∀ (l : List Element) (acc : List TestCase.Rule.Package),
      l.foldl
        (fun packages child =>
          if child.tag = "package"
          then packages ++ [TestCase.Rule.Package.from_element child]
          else packages) acc
        = acc ++ (l.filter (fun c => c.tag == "package")).map
            TestCase.Rule.Package.from_element := by
    intro l
    induction l with
    | nil => simp
    | cons c cs ih =>
      intro acc
      rw [List.foldl_cons]
      by_cases h : c.tag = "package"
      · simp [h, ih, List.filter_cons, List.append_assoc]
      · simp [h, ih, List.filter_cons]
  simpa [TestCase.Rule.parse_package_list] using key pe.children []

lemma rulesOf_mem {l : List Element} {c ch : Element}
    (hc : c ∈ l) (ht : c.tag = "rules") (hch : ch ∈ c.children) :
    TestCase.Rule.from_element ch ∈ rulesOf l := by
  induction l with
  | nil => cases hc
  | cons d ds ih =>
    rcases List.mem_cons.mp hc with h | h
    · subst h
      rw [rulesOf, if_pos ht]
      exact List.mem_append.mpr (Or.inl (List.mem_map_of_mem _ hch))
    · rw [rulesOf]
      exact List.mem_append.mpr (Or.inr (ih h))

lemma rulesOf_eq_nil {l : List Element}
    (h : ∀ c ∈ l, c.tag = "rules" → c.children = []) : rulesOf l = [] := by
  induction l with
  | nil => rfl
  | cons d ds ih =>
    rw [rulesOf, ih (fun c hc => h c (List.mem_cons_of_mem _ hc))]
    by_cases hd : d.tag = "rules"
    · simp [hd, h d (List.mem_cons_self _ _) hd]
    · simp [hd]

lemma errOf_eq_of_no_error {l : List Element} (acc : Option TestCase.Rule.Error)
    (h : ∀ c ∈ l, c.tag ≠ "error") : errOf l acc = acc := by
  induction l with
  | nil => rfl
  | cons d ds ih =>
    rw [errOf, if_neg (h d (List.mem_cons_self _ _))]
    exact ih (fun c hc => h c (List.mem_cons_of_mem _ hc))

lemma textOf_eq_of_no_reqtext {l : List Element} (acc : Option String)
    (h : ∀ c ∈ l, c.tag ≠ "requirementText") : textOf l acc = acc := by
  induction l with
  | nil => rfl
  | cons d ds ih =>
    rw [textOf, if_neg (h d (List.mem_cons_self _ _))]
    exact ih (fun c hc => h c (List.mem_cons_of_mem _ hc))

lemma textOf_eq_of_all_text {l : List Element} (t : Option String)
    (h : ∀ d ∈ l, d.tag = "requirementText" → d.text = t) : textOf l t = t := by
  induction l with
  | nil => rfl
  | cons d ds ih =>
    rw [textOf]
    by_cases hd : d.tag = "requirementText"
    · rw [if_pos hd, h d (List.mem_cons_self _ _) hd]
      exact ih (fun d' hd' => h d' (List.mem_cons_of_mem _ hd'))
    · rw [if_neg hd]
      exact ih (fun d' hd' => h d' (List.mem_cons_of_mem _ hd'))

lemma textOf_eq_of_unique {l : List Element} (acc : Option String) {c : Element}
    (hc : c ∈ l) (ht : c.tag = "requirementText")
    (huniq : ∀ d ∈ l, d.tag = "requirementText" → d = c) :
    textOf l acc = c.text := by
  induction l generalizing acc with
  | nil => cases hc
  | cons d ds ih =>
    rw [textOf]
    rcases List.mem_cons.mp hc with h | h
    · subst h
      rw [if_pos ht]
      exact textOf_eq_of_all_text _
        (fun d' hd' htag' => by rw [huniq d' (List.mem_cons_of_mem _ hd') htag'])
    · by_cases hd : d.tag = "requirementText"
      · have hdc : d = c := huniq d (List.mem_cons_self _ _) hd
        subst hdc
        rw [if_pos hd]
        exact textOf_eq_of_all_text _
          (fun d' hd' htag' => by rw [huniq d' (List.mem_cons_of_mem _ hd') htag'])
      · rw [if_neg hd]
        exact ih _ h (fun d' hd' => huniq d' (List.mem_cons_of_mem _ hd'))

/-- C1: the claim says a non-conforming document makes `from_element`
raise `SchemaValidationError` and construct no `TestCase`.  The source
instead calls `schema.validate(case_ele)` (which returns a boolean and
never raises) and discards the verdict, so `from_element` returns a
fully constructed `TestCase` for a document the schema rejects: here a
root with no required `id` child fails validation yet decodes. -/
theorem C1_invalid_document_still_returns_TestCase :
    Schema.validate TC_SCHEMA c1doc = false ∧
    TestCase.from_element c1doc TC_SCHEMA
      = TestCase.init Option.none (PyVal.str "TRUE") Option.none (some "")
          (Option.some []) := by
  exact ⟨rfl, rfl⟩

/-- C2: the claim says `from_xml_string` parses the string, delegates to
`from_element`, and returns the decoded `TestCase`.  The source calls
`tree.getroot()` on the result of `ET.fromstring`, which is an
`_Element` without a `getroot` method, so every call raises
`AttributeError` before any decoding, whatever the document and schema. -/
theorem C2_from_xml_string_always_raises_AttributeError :
    ∀ (xml : Element) (schema : Schema),
      TestCase.from_xml_string xml schema = Except.error PyError.attributeError :=
  fun _ _ => rfl

/-- C3: `testable` is true iff the raw stored testability value is
exactly the string `"TRUE"`, and `unknown` is true iff it is exactly
`"UNKNOWN"`; in particular both are false when the raw value is the
string `"FALSE"` (or any other value). -/
theorem C3_testability_classification :
    (∀ tc : TestCase,
      (tc.testable = true ↔ tc.raw_testable = PyVal.str "TRUE") ∧
      (tc.unknown = true ↔ tc.raw_testable = PyVal.str "UNKNOWN")) ∧
    (TestCase.init Option.none (PyVal.str "FALSE") Option.none (some "")
        Option.none).testable = false ∧
    (TestCase.init Option.none (PyVal.str "FALSE") Option.none (some "")
        Option.none).unknown = false := by
  refine ⟨fun tc => ⟨?_, ?_⟩, rfl, rfl⟩ <;>
    cases h : tc.raw_testable <;>
      simp [TestCase.testable, TestCase.unknown, PyVal.eqStr, h]

/-- C4 counterexample: the claim says a `rules` element with N children
tagged `rule` yields exactly N decoded rules.  `c4rules` has zero
`rule`-tagged children (its one child is tagged `metadata`), yet the
decoded rule sequence has length 1, because the inner loop of
`from_element` decodes EVERY child of `rules` regardless of tag. -/
theorem C4_counterexample :
    ¬ ((TestCase.from_element c4doc TC_SCHEMA).rules.length
        = (c4rules.children.filter (fun c => c.tag == "rule")).length) := by
  decide

/-- C4 (amended): the decoded `TestCase.rules` lists, in document order,
one decoded rule per immediate child of each `rules` element regardless
of the child's tag (`rulesOf`); when every child is tagged `rule` this
is the claimed length N.  The `corpusPackages` half holds as claimed:
`parse_package_list` returns the decoded `package`-tagged children in
document order, so its length is the number M of `package` children. -/
theorem C4_order_and_length :
    (∀ (e : Element) (s : Schema),
      (TestCase.from_element e s).rules = rulesOf e.children) ∧
    (∀ pe : Element,
      TestCase.Rule.parse_package_list pe
        = (pe.children.filter (fun c => c.tag == "package")).map
            TestCase.Rule.Package.from_element ∧
      (TestCase.Rule.parse_package_list pe).length
        = (pe.children.filter (fun c => c.tag == "package")).length) := by
  refine ⟨from_element_rules, fun pe => ⟨parse_package_list_eq pe, ?_⟩⟩
  rw [parse_package_list_eq, List.length_map]

/-- C5 counterexample: the claim says children of `rules` whose tag is
not `rule` contribute no entry.  `c5doc`'s `rules` element has a single
`note`-tagged child and no `rule` child, yet the decoded rule sequence
is not empty. -/
theorem C5_counterexample :
    ¬ ((TestCase.from_element c5doc TC_SCHEMA).rules = []) := by
  decide

/-- C5 (amended): immediate children of a `rules` element are NOT
filtered by tag: every child `ch` of every `rules`-tagged child of the
root, whatever `ch.tag` is, contributes `Rule.from_element ch` to the
decoded rule sequence. -/
theorem C5_nonrule_children_decoded :
    ∀ (e : Element) (s : Schema) (c ch : Element),
      c ∈ e.children → c.tag = "rules" → ch ∈ c.children →
      TestCase.Rule.from_element ch ∈ (TestCase.from_element e s).rules := by
  intro e s c ch hc ht hch
  rw [from_element_rules]
  exact rulesOf_mem hc ht hch

/-- C5 witness: the `note`-tagged child of `c5doc`'s `rules` element is
decoded into the rule sequence. -/
theorem C5_witness :
    TestCase.Rule.from_element c5note
      ∈ (TestCase.from_element c5doc TC_SCHEMA).rules :=
  C5_nonrule_children_decoded c5doc TC_SCHEMA c5rules c5note
    (by simp [c5doc]) rfl (by simp [c5rules])

/-- C6 counterexample: the claim says a `rules` element with zero `rule`
children decodes to an empty rule sequence.  `c6doc`'s `rules` element
has zero `rule`-tagged children (one `comment` child), yet the decoded
sequence is not empty. -/
theorem C6_counterexample :
    ¬ ((TestCase.from_element c6doc TC_SCHEMA).rules = []) := by
  decide

/-- C6 (amended): a `rules` element with zero children (of any tag)
decodes to an empty rule sequence — and decoding never fails, as
`from_element` is a total function in this embedding — and a `rule`
element with no `error` child decodes to a `Rule` whose error is `None`,
not a constructed empty `Error`. -/
theorem C6_default_substitution :
    (∀ (e : Element) (s : Schema),
      (∀ c ∈ e.children, c.tag = "rules" → c.children = []) →
      (TestCase.from_element e s).rules = []) ∧
    (∀ re : Element, (∀ c ∈ re.children, c.tag ≠ "error") →
      (TestCase.Rule.from_element re).error = Option.none) := by
  constructor
  · intro e s h
    rw [from_element_rules]
    exact rulesOf_eq_nil h
  · intro re h
    rw [rule_from_element_error]
    exact errOf_eq_of_no_error _ h

/-- C6 witness: a document whose `rules` element is empty decodes to an
empty rule sequence, and a `rule` with only a `description` child
decodes with `error = None`. -/
theorem C6_witness :
    (TestCase.from_element c6emptyDoc TC_SCHEMA).rules = [] ∧
    (TestCase.Rule.from_element c6rule).error = Option.none := by
  constructor
  · exact C6_default_substitution.1 c6emptyDoc TC_SCHEMA
      (by intro c hc ht; simp [c6emptyDoc] at hc; subst hc; rfl)
  · exact C6_default_substitution.2 c6rule
      (by intro c hc; simp [c6rule] at hc; subst hc; decide)

/-- C7 counterexample: the claim says an empty (present) or missing
`requirementText` child yields empty text.  For the present-but-empty
element of `c7doc`, lxml reports the text as `None`, and the decoder
stores that `None`: `requirement_text` is not the empty string. -/
theorem C7_counterexample :
    ¬ ((TestCase.from_element c7doc TC_SCHEMA).requirement_text = some "") := by
  decide

/-- C7 (amended): when no `requirementText` child is present at all,
`requirement_text` is the empty string (the constructor-call default);
when a `requirementText` child is present — as the unique child with
that tag, whatever other siblings the document has — its text is
captured verbatim as the XML layer reports it, which is `None`, not
`""`, for an element without text content. -/
theorem C7_requirement_text :
    (∀ (e : Element) (s : Schema),
      (∀ c ∈ e.children, c.tag ≠ "requirementText") →
      (TestCase.from_element e s).requirement_text = some "") ∧
    (∀ (e c : Element) (s : Schema), c ∈ e.children →
      c.tag = "requirementText" →
      (∀ d ∈ e.children, d.tag = "requirementText" → d = c) →
      (TestCase.from_element e s).requirement_text = c.text) := by
  constructor
  · intro e s h
    rw [from_element_text]
    exact textOf_eq_of_no_reqtext _ h
  · intro e c s hc ht huniq
    rw [from_element_text]
    exact textOf_eq_of_unique _ hc ht huniq

/-- C7 witness: a document without a `requirementText` element decodes
to `requirement_text = ""`, and a document whose `requirementText` sits
between `id` and `rules` siblings captures the text verbatim. -/
theorem C7_witness :
    (TestCase.from_element c7absentDoc TC_SCHEMA).requirement_text = some "" ∧
    (TestCase.from_element c7textDoc TC_SCHEMA).requirement_text
      = some "Text as authored " := by
  constructor
  · exact C7_requirement_text.1 c7absentDoc TC_SCHEMA
      (by intro c hc; simp [c7absentDoc] at hc; subst hc; decide)
  · exact C7_requirement_text.2 c7textDoc c7textEle TC_SCHEMA
      (by simp [c7textDoc])
      rfl
      (by
        intro d hd htag
        simp [c7textDoc] at hd
        rcases hd with h | h | h
        · subst h; exact absurd htag (by decide)
        · exact h
        · subst h; exact absurd htag (by decide))

/-- C8: no decoder populates the references field: every `TestCase`
built by `from_element` (with any element and any schema) has an empty
`references` list. -/
theorem C8_references_always_empty :
    ∀ (e : Element) (s : Schema), (TestCase.from_element e s).references = [] :=
  fun _ _ => rfl

/-- C9: the claim says `TestCase.__str__` succeeds and never fails.  The
source concatenates a `str` with the boolean property `self.testable`
(and, when the case id is a `CaseId` with a `None` field, already fails
inside `str(self.case_id)`), so every call raises `TypeError`: for every
`TestCase` whatsoever, the modelled `__str__` returns a `TypeError`. -/
theorem C9_str_always_raises_TypeError :
    ∀ tc : TestCase, TestCase.toStr tc = Except.error PyError.typeError := by
  intro tc
  obtain ⟨cid, t, refs, tx, rl⟩ := tc
  cases cid with
  | none => rfl
  | some c =>
    obtain ⟨r, sp, v⟩ := c
    cases r <;> cases sp <;> cases v <;> rfl

/-- C10: constructing a `TestCase` directly with the constructor default
`testable=True` (the Python boolean) yields `testable == False` and
`unknown == False`, because both predicates compare the stored raw value
against a string and the boolean equals neither. -/
theorem C10_constructor_default_testable_is_false :
    ∀ (case_id : Option TestCase.CaseId) (references : Option (List String))
      (text : Option String) (rules : Option (List TestCase.Rule)),
      (TestCase.init case_id (PyVal.bool true) references text rules).testable
          = false ∧
      (TestCase.init case_id (PyVal.bool true) references text rules).unknown
          = false :=
  fun _ _ _ _ => ⟨rfl, rfl⟩

end Eark
